import Mathlib

/-!
Shallow embedding of the core of `fjpacheco/prex_core_challenge` (Rust):
value objects, the error taxonomy, the in-memory repository and the
`Service` orchestrator from `src/application/client_balance_service.rs`,
together with theorems settling the frozen claims about them.

Modelling conventions:
* `rust_decimal::Decimal` amounts are modelled as `Int` (exact signed
  arithmetic; the claims under study never exercise precision or range
  limits of the 96-bit decimal).
* Rust `HashMap` is modelled as an association list; iteration order is
  the list order (the claims are order-insensitive).
* `async` methods are modelled as pure state-passing functions; each
  repository method is one atomic state transition, reflecting the
  `Mutex`-guarded critical sections of `in_memory.rs`.
* `anyhow::Error` is modelled as `AnyErr`: a root message plus a stack
  of `.with_context(...)` messages.
* Rust string primitives (`str::trim`, `str::len`, `usize::to_string`,
  `str::parse::<usize>`, chrono `NaiveDate::parse_from_str "%Y-%m-%d"`)
  are modelled by the executable functions below.
-/

set_option autoImplicit false

/-- Models Rust `char::is_whitespace`: the Unicode White_Space property
(U+0009..U+000D, U+0020, U+0085, U+00A0, U+1680, U+2000..U+200A, U+2028,
U+2029, U+202F, U+205F, U+3000). -/
def rustIsWhitespace (c : Char) : Bool :=
  let n := c.toNat
  (0x09 ≤ n && n ≤ 0x0D) || n = 0x20 || n = 0x85 || n = 0xA0 || n = 0x1680 ||
  (0x2000 ≤ n && n ≤ 0x200A) || n = 0x2028 || n = 0x2029 || n = 0x202F ||
  n = 0x205F || n = 0x3000

/-- Models Rust `str::trim`: drop Unicode White_Space from both ends. -/
def rustTrim (s : String) : String :=
  ⟨((s.data.dropWhile rustIsWhitespace).reverse.dropWhile rustIsWhitespace).reverse⟩

/-- Models Rust `str::len`: the UTF-8 byte length of the string. -/
def utf8Len (s : String) : Nat :=
  (s.data.map Char.utf8Size).sum

/-- Numeric value of a decimal digit character (only used on digits). -/
def digitVal (c : Char) : Nat := c.toNat - 48

/-- Decimal value of a digit-character list, most significant first. -/
def digitsToNat (l : List Char) : Nat :=
  l.foldl (fun acc c => acc * 10 + digitVal c) 0

/-- Models Rust `str::parse::<usize>()` on a 64-bit platform: an optional
leading `+`, then one or more ASCII digits, value below `2^64`. -/
def parseUsize (s : String) : Option Nat :=
  let chars := s.data
  let digits := if chars.head? = some '+' then chars.tail else chars
  if digits.isEmpty then none
  else if digits.all Char.isDigit then
    let n := digitsToNat digits
    if n < 2 ^ 64 then some n else none
  else none

/-- The decimal digit character for `d < 10`. -/
def digitChar : Nat → Char
  | 0 => '0' | 1 => '1' | 2 => '2' | 3 => '3' | 4 => '4'
  | 5 => '5' | 6 => '6' | 7 => '7' | 8 => '8' | 9 => '9'
  | _ => '*'

/-- Decimal digit characters of `n`, most significant first. -/
def natDigits (n : Nat) : List Char :=
  if h : n < 10 then [digitChar n]
  else
    have : n / 10 < n := Nat.div_lt_self (by omega) (by omega)
    natDigits (n / 10) ++ [digitChar (n % 10)]

/-- Models Rust `usize::to_string()` / `Display for usize`. -/
def natToString (n : Nat) : String := ⟨natDigits n⟩

/-- Gregorian leap-year rule (proleptic, astronomical year numbering), as
used by chrono `NaiveDate`; `%` is the Euclidean remainder, so negative
years are handled as chrono does. -/
def isLeapYear (y : Int) : Bool :=
  (y % 4 == 0 && y % 100 != 0) || y % 400 == 0

/-- Number of days of month `m` in year `y` (proleptic Gregorian). -/
def daysInMonth (y : Int) (m : Nat) : Nat :=
  if m = 2 then (if isLeapYear y then 29 else 28)
  else if m = 4 ∨ m = 6 ∨ m = 9 ∨ m = 11 then 30
  else 31

/-- Consume up to `max` leading ASCII digits of the list (greedy);
returns the digits and the rest. Models chrono `scan::number`. -/
def takeDigits : Nat → List Char → List Char × List Char
  | 0, l => ([], l)
  | _, [] => ([], [])
  | n + 1, c :: rest =>
    if c.isDigit then
      let (ds, r) := takeDigits n rest
      (c :: ds, r)
    else ([], c :: rest)

/-- Models chrono `NaiveDate::parse_from_str(s, "%Y-%m-%d")`: `%Y` parses
an optionally signed year — with an explicit `-` or `+` any number of
digits is consumed, without a sign at most 4 — then a literal dash, `%m`
(1-2 digits), a dash, `%d` (1-2 digits), the whole string consumed; the
date must be a valid proleptic-Gregorian date with the year in chrono's
`NaiveDate` range `-262144..=262143`. -/
def parseDate (s : String) : Option (Int × Nat × Nat) :=
  let yearPart : Option (Int × List Char) :=
    match s.data with
    | '-' :: rest =>
      let (ds, r) := takeDigits rest.length rest
      if ds.isEmpty then none else some (-(digitsToNat ds : Int), r)
    | '+' :: rest =>
      let (ds, r) := takeDigits rest.length rest
      if ds.isEmpty then none else some ((digitsToNat ds : Int), r)
    | l =>
      let (ds, r) := takeDigits 4 l
      if ds.isEmpty then none else some ((digitsToNat ds : Int), r)
  match yearPart with
  | none => none
  | some (y, r1) =>
    match r1 with
    | '-' :: r2 =>
      let (mds, r3) := takeDigits 2 r2
      if mds.isEmpty then none
      else
        match r3 with
        | '-' :: r4 =>
          let (dds, r5) := takeDigits 2 r4
          if dds.isEmpty then none
          else if r5.isEmpty then
            let mv := digitsToNat mds
            let dv := digitsToNat dds
            if -262144 ≤ y ∧ y ≤ 262143 ∧ 1 ≤ mv ∧ mv ≤ 12 ∧ 1 ≤ dv ∧
                dv ≤ daysInMonth y mv then
              some (y, mv, dv)
            else none
          else none
        | _ => none
    | _ => none

/-- `ClientId(usize)` from `domain/model/value/client_id.rs`. -/
structure ClientId where
  val : Nat
deriving DecidableEq

/-- `Document(String)` from `domain/model/value/document.rs` (holds the
trimmed, validated string). -/
structure Document where
  val : String
deriving DecidableEq

/-- `ClientName(String)` from `domain/model/value/client_name.rs`. -/
structure ClientName where
  val : String
deriving DecidableEq

/-- `Country(String)` from `domain/model/value/country.rs`. -/
structure Country where
  val : String
deriving DecidableEq

/-- `BirthDate(NaiveDate)` from `domain/model/value/birth_date.rs`
(chrono `NaiveDate` years are signed). -/
structure BirthDate where
  year : Int
  month : Nat
  day : Nat
deriving DecidableEq

/-- Models `anyhow::Error`: a root message wrapped in zero or more
`.with_context(...)` layers. -/
inductive AnyErr where
  | base (msg : String)
  | ctx (msg : String) (inner : AnyErr)
deriving DecidableEq

/-- `ClientError` from `domain/model/error.rs`. `Unknown` carries the
wrapped `anyhow::Error`. -/
inductive ClientError where
  | Duplicate (document : String)
  | NotFoundById (idDocument : ClientId)
  | NotFoundByDocument (document : Document)
  | FieldEmpty (fieldName : String)
  | FieldInvalid (fieldName : String) (value : String)
  | FieldMaxLength (fieldName : String) (maxLength : Nat)
  | NegativeAmount
  | PositiveAmount
  | ZeroAmount
  | BalancesEmpty
  | Unknown (cause : AnyErr)
deriving DecidableEq

/-- `Display for ClientId`: the decimal rendering of the inner `usize`. -/
def ClientId.display (c : ClientId) : String := natToString c.val

/-- `Display for anyhow::Error`: the outermost context message (or the
root message when there is no context). -/
def AnyErr.display : AnyErr → String
  | .base m => m
  | .ctx m _ => m

/-- The `thiserror` display messages of `ClientError` (`Unknown` is
`#[error(transparent)]`). -/
def ClientError.display : ClientError → String
  | .Duplicate d => "client with document " ++ d ++ " already exists"
  | .NotFoundById i => "client not found by id " ++ i.display
  | .NotFoundByDocument d => "client not found by document " ++ d.val
  | .FieldEmpty f => "client " ++ f ++ " cannot be empty"
  | .FieldInvalid f v => "client " ++ f ++ " is invalid: " ++ v
  | .FieldMaxLength f m => "client " ++ f ++ " is too long. Max length is " ++ natToString m
  | .NegativeAmount => "client amount cannot be negative"
  | .PositiveAmount => "client amount cannot be positive"
  | .ZeroAmount => "client amount cannot be zero"
  | .BalancesEmpty => "balances are empty"
  | .Unknown a => a.display

/-- `MAX_LENGTH_NAME` from `domain/model/value/mod.rs`. -/
def MAX_LENGTH_NAME : Nat := 128

/-- `MAX_LENGTH_DOCUMENT` from `domain/model/value/mod.rs`. -/
def MAX_LENGTH_DOCUMENT : Nat := 64

/-- `MAX_LENGTH_COUNTRY` from `domain/model/value/mod.rs`. -/
def MAX_LENGTH_COUNTRY : Nat := 32

/-- `ClientName::new` from `client_name.rs`. -/
def ClientName.new (name : String) : Except ClientError ClientName :=
  let name := rustTrim name
  if name = "" then .error (.FieldEmpty "name")
  else if MAX_LENGTH_NAME < utf8Len name then .error (.FieldMaxLength "name" MAX_LENGTH_NAME)
  else .ok ⟨name⟩

/-- `Document::new` from `document.rs`. -/
def Document.new (name : String) : Except ClientError Document :=
  let name := rustTrim name
  if name = "" then .error (.FieldEmpty "document")
  else if MAX_LENGTH_DOCUMENT < utf8Len name then .error (.FieldMaxLength "document" MAX_LENGTH_DOCUMENT)
  else .ok ⟨name⟩

/-- `Country::new` from `country.rs`. -/
def Country.new (name : String) : Except ClientError Country :=
  let name := rustTrim name
  if name = "" then .error (.FieldEmpty "country")
  else if MAX_LENGTH_COUNTRY < utf8Len name then .error (.FieldMaxLength "country" MAX_LENGTH_COUNTRY)
  else .ok ⟨name⟩

/-- `ClientId::new` from `client_id.rs`: trims, then parses a `usize`;
both the empty case and the parse-failure case yield `FieldInvalid` with
the ORIGINAL (untrimmed) input as value. -/
def ClientId.new (id : String) : Except ClientError ClientId :=
  let idTrimmed := rustTrim id
  if idTrimmed = "" then .error (.FieldInvalid "client_id" id)
  else
    match parseUsize idTrimmed with
    | some n => .ok ⟨n⟩
    | none => .error (.FieldInvalid "client_id" id)

/-- `BirthDate::new` from `birth_date.rs`: trims, rejects empty with
`FieldEmpty`, then parses `"%Y-%m-%d"`; a parse failure yields
`FieldInvalid` carrying the TRIMMED input. -/
def BirthDate.new (name : String) : Except ClientError BirthDate :=
  let name := rustTrim name
  if name = "" then .error (.FieldEmpty "birth_date")
  else
    match parseDate name with
    | some (y, m, d) => .ok ⟨y, m, d⟩
    | none => .error (.FieldInvalid "birth_date" name)

/-- Models `rust_decimal::Decimal` for the amounts exercised by the claims. -/
abbrev Amount := Int

/-- `Client` entity from `domain/model/entity/client.rs`. -/
structure Client where
  id : ClientId
  name : ClientName
  birthDate : BirthDate
  document : Document
  country : Country
deriving DecidableEq

/-- `Balance` entity from `domain/model/entity/balance.rs`. -/
structure Balance where
  id : ClientId
  balance : Amount
deriving DecidableEq

/-- `CreateClientRequest` from `domain/model/dto/create_client.rs`. -/
structure CreateClientRequest where
  name : ClientName
  birthDate : BirthDate
  document : Document
  country : Country
deriving DecidableEq

/-- `CreditTransactionRequest` from `domain/model/dto/credit_transaction.rs`. -/
structure CreditTransactionRequest where
  clientId : ClientId
  amount : Amount
deriving DecidableEq

/-- `CreditTransactionRequest::new`: negative → `NegativeAmount`,
zero → `ZeroAmount`, positive → ok. -/
def CreditTransactionRequest.new (clientId : ClientId) (amount : Amount) :
    Except ClientError CreditTransactionRequest :=
  if amount < 0 then .error .NegativeAmount
  else if amount = 0 then .error .ZeroAmount
  else .ok ⟨clientId, amount⟩

/-- `DebitTransactionRequest` from `domain/model/dto/debit_transaction.rs`. -/
structure DebitTransactionRequest where
  clientId : ClientId
  amount : Amount
deriving DecidableEq

/-- `DebitTransactionRequest::new`: positive → `PositiveAmount`,
zero → `ZeroAmount`, negative → ok (the stored amount is the negative
delta itself). -/
def DebitTransactionRequest.new (clientId : ClientId) (amount : Amount) :
    Except ClientError DebitTransactionRequest :=
  if 0 < amount then .error .PositiveAmount
  else if amount = 0 then .error .ZeroAmount
  else .ok ⟨clientId, amount⟩

/-- `GetClientRequest` from `domain/model/dto/get_balance.rs`. -/
structure GetClientRequest where
  clientId : ClientId
deriving DecidableEq

/-! ## Association-list model of `HashMap` -/

/-- `HashMap::get`: first entry with the given key. -/
def alGet {α : Type} : List (ClientId × α) → ClientId → Option α
  | [], _ => none
  | (k, v) :: rest, k' => if k = k' then some v else alGet rest k'

/-- `HashMap::contains_key`. -/
def alContains {α : Type} (m : List (ClientId × α)) (k : ClientId) : Bool :=
  (alGet m k).isSome

/-- `HashMap::insert`: replace the entry with the given key if present,
otherwise append the new entry. -/
def alInsert {α : Type} : List (ClientId × α) → ClientId → α → List (ClientId × α)
  | [], k, v => [(k, v)]
  | (k', v') :: rest, k, v =>
    if k' = k then (k, v) :: rest else (k', v') :: alInsert rest k v

/-- `HashMap::remove`: drop the entry with the given key. -/
def alRemove {α : Type} (m : List (ClientId × α)) (k : ClientId) : List (ClientId × α) :=
  m.filter (fun p => p.1 ≠ k)

/-! ## `InMemoryRepository` from `infrastructure/outbound/in_memory.rs` -/

/-- The state of `InMemoryRepository`: the two `Mutex<HashMap<..>>` fields
and the `AtomicUsize` id counter. -/
structure InMemoryRepository where
  clients : List (ClientId × Client)
  client_balances : List (ClientId × Balance)
  id_counter : Nat
deriving DecidableEq

/-- `InMemoryRepository::update_balance`: look the balance up by client id
(`NotFoundById` if absent), add the amount, store and return the updated
`Balance`. -/
def InMemoryRepository.update_balance (repo : InMemoryRepository) (clientId : ClientId)
    (amount : Amount) : Except ClientError Balance × InMemoryRepository :=
  match alGet repo.client_balances clientId with
  | none => (.error (.NotFoundById clientId), repo)
  | some b =>
    let b' : Balance := ⟨b.id, b.balance + amount⟩
    (.ok b', { repo with client_balances := alInsert repo.client_balances clientId b' })

/-- `InMemoryRepository::create_client`: mint an id from the atomic counter
(`fetch_add` happens before the duplicate check, so the counter advances
even on failure), reject when any stored client already has the requested
document, otherwise insert. -/
def InMemoryRepository.create_client (repo : InMemoryRepository) (req : CreateClientRequest) :
    Except ClientError Client × InMemoryRepository :=
  let n := repo.id_counter
  let repo1 := { repo with id_counter := n + 1 }
  match ClientId.new (natToString n) with
  | .error e => (.error e, repo1)
  | .ok id =>
    let client : Client := ⟨id, req.name, req.birthDate, req.document, req.country⟩
    if repo1.clients.any (fun p => p.2.document = req.document) then
      (.error (.Duplicate req.document.val), repo1)
    else
      (.ok client, { repo1 with clients := alInsert repo1.clients id client })

/-- `InMemoryRepository::init_client_balance`: `NotFoundById` when the
client id does not exist, otherwise store and return a zero balance. -/
def InMemoryRepository.init_client_balance (repo : InMemoryRepository) (req : ClientId) :
    Except ClientError Balance × InMemoryRepository :=
  if ¬ alContains repo.clients req then (.error (.NotFoundById req), repo)
  else
    let b : Balance := ⟨req, 0⟩
    (.ok b, { repo with client_balances := alInsert repo.client_balances req b })

/-- `InMemoryRepository::delete_client`: remove the client entry (succeeds
even when the id is absent). -/
def InMemoryRepository.delete_client (repo : InMemoryRepository) (clientId : ClientId) :
    Except ClientError Unit × InMemoryRepository :=
  (.ok (), { repo with clients := alRemove repo.clients clientId })

/-- `InMemoryRepository::client_id_exists`. -/
def InMemoryRepository.client_id_exists (repo : InMemoryRepository) (clientId : ClientId) :
    Except ClientError Bool × InMemoryRepository :=
  (.ok (alContains repo.clients clientId), repo)

/-- `InMemoryRepository::get_client_by_document`: first stored client with
the given document, `NotFoundByDocument` otherwise. -/
def InMemoryRepository.get_client_by_document (repo : InMemoryRepository) (document : Document) :
    Except ClientError Client × InMemoryRepository :=
  match repo.clients.find? (fun p => p.2.document = document) with
  | some p => (.ok p.2, repo)
  | none => (.error (.NotFoundByDocument document), repo)

/-- `InMemoryRepository::credit_balance` delegates to `update_balance`. -/
def InMemoryRepository.credit_balance (repo : InMemoryRepository)
    (req : CreditTransactionRequest) : Except ClientError Balance × InMemoryRepository :=
  repo.update_balance req.clientId req.amount

/-- `InMemoryRepository::debit_balance` delegates to `update_balance`. -/
def InMemoryRepository.debit_balance (repo : InMemoryRepository)
    (req : DebitTransactionRequest) : Except ClientError Balance × InMemoryRepository :=
  repo.update_balance req.clientId req.amount

/-- `InMemoryRepository::get_client`. -/
def InMemoryRepository.get_client (repo : InMemoryRepository) (req : GetClientRequest) :
    Except ClientError Client × InMemoryRepository :=
  match alGet repo.clients req.clientId with
  | some c => (.ok c, repo)
  | none => (.error (.NotFoundById req.clientId), repo)

/-- `InMemoryRepository::get_balance_by_client_id`. -/
def InMemoryRepository.get_balance_by_client_id (repo : InMemoryRepository)
    (req : GetClientRequest) : Except ClientError Balance × InMemoryRepository :=
  match alGet repo.client_balances req.clientId with
  | some b => (.ok b, repo)
  | none => (.error (.NotFoundById req.clientId), repo)

/-- `InMemoryRepository::reset_all_balances_to_zero`: in one critical
section, set every stored balance to zero and return the pre-reset
snapshot (one `Balance` per stored entry, carrying the entry's stored
client id and its old amount). -/
def InMemoryRepository.reset_all_balances_to_zero (repo : InMemoryRepository) :
    Except ClientError (List Balance) × InMemoryRepository :=
  let old := repo.client_balances.map (fun p => Balance.mk p.2.id p.2.balance)
  let zeroed := repo.client_balances.map (fun p => (p.1, Balance.mk p.2.id 0))
  (.ok old, { repo with client_balances := zeroed })

/-- `InMemoryRepository::are_balances_empty`. -/
def InMemoryRepository.are_balances_empty (repo : InMemoryRepository) :
    Except ClientError Bool × InMemoryRepository :=
  (.ok repo.client_balances.isEmpty, repo)

/-- The sequential mutation of `merge_old_balances`: for each old entry in
order, if a current balance exists under the old entry's client id, set it
to `old + current`; otherwise skip the entry (the source only logs a
warning). -/
def mergeBalances : List (ClientId × Balance) → List Balance → List (ClientId × Balance)
  | bals, [] => bals
  | bals, old :: rest =>
    match alGet bals old.id with
    | some actual => mergeBalances (alInsert bals old.id ⟨actual.id, old.balance + actual.balance⟩) rest
    | none => mergeBalances bals rest

/-- `InMemoryRepository::merge_old_balances`: additively merge the old
snapshot into the current balances; always returns `Ok`. -/
def InMemoryRepository.merge_old_balances (repo : InMemoryRepository)
    (oldClientBalances : List Balance) : Except ClientError Unit × InMemoryRepository :=
  (.ok (), { repo with client_balances := mergeBalances repo.client_balances oldClientBalances })

/-! ## The repository and exporter ports -/

/-- The `ClientBalanceRepository` trait, as a record of state-passing
operations over an abstract repository state `σ`. -/
structure ClientBalanceRepository (σ : Type) where
  create_client : σ → CreateClientRequest → Except ClientError Client × σ
  init_client_balance : σ → ClientId → Except ClientError Balance × σ
  delete_client : σ → ClientId → Except ClientError Unit × σ
  client_id_exists : σ → ClientId → Except ClientError Bool × σ
  get_client_by_document : σ → Document → Except ClientError Client × σ
  credit_balance : σ → CreditTransactionRequest → Except ClientError Balance × σ
  debit_balance : σ → DebitTransactionRequest → Except ClientError Balance × σ
  get_client : σ → GetClientRequest → Except ClientError Client × σ
  get_balance_by_client_id : σ → GetClientRequest → Except ClientError Balance × σ
  reset_all_balances_to_zero : σ → Except ClientError (List Balance) × σ
  are_balances_empty : σ → Except ClientError Bool × σ
  merge_old_balances : σ → List Balance → Except ClientError Unit × σ

/-- The `BalanceExporter` trait over an abstract exporter state `ε`. -/
structure BalanceExporter (ε : Type) where
  export_balances : ε → List Balance → Except ClientError Unit × ε

/-- The `InMemoryRepository` implementation of the repository port. -/
def inMemoryRepo : ClientBalanceRepository InMemoryRepository where
  create_client := InMemoryRepository.create_client
  init_client_balance := InMemoryRepository.init_client_balance
  delete_client := InMemoryRepository.delete_client
  client_id_exists := InMemoryRepository.client_id_exists
  get_client_by_document := InMemoryRepository.get_client_by_document
  credit_balance := InMemoryRepository.credit_balance
  debit_balance := InMemoryRepository.debit_balance
  get_client := InMemoryRepository.get_client
  get_balance_by_client_id := InMemoryRepository.get_balance_by_client_id
  reset_all_balances_to_zero := InMemoryRepository.reset_all_balances_to_zero
  are_balances_empty := InMemoryRepository.are_balances_empty
  merge_old_balances := InMemoryRepository.merge_old_balances

/-! ## The `Service` orchestrator (`application/client_balance_service.rs`) -/

/-- Models `anyhow`'s conversion of a `ClientError` into an
`anyhow::Error` (the error object, identified by its display message). -/
def toAnyErr (e : ClientError) : AnyErr := .base e.display

/-- `Service::validate_client_exists`: `client_id_exists`, turning `false`
into `NotFoundById` and propagating repository errors. -/
def Service.validate_client_exists {σ : Type} (R : ClientBalanceRepository σ) (s : σ)
    (clientId : ClientId) : Except ClientError Unit × σ :=
  let (r, s) := R.client_id_exists s clientId
  match r with
  | .error e => (.error e, s)
  | .ok b => if b then (.ok (), s) else (.error (.NotFoundById clientId), s)

/-- `Service::validate_client_exists_by_document` (root crate `src/`):
`result.is_err()` — ANY lookup error — yields `Ok(())` (no conflict);
a successful lookup yields `Duplicate`. -/
def Service.validate_client_exists_by_document {σ : Type} (R : ClientBalanceRepository σ)
    (s : σ) (document : Document) : Except ClientError Unit × σ :=
  let (result, s) := R.get_client_by_document s document
  match result with
  | .error _ => (.ok (), s)
  | .ok _ => (.error (.Duplicate document.val), s)

/-- `Service::validate_client_exists_by_document` (api crate
`api/src/`): `Ok` → `Duplicate`, `NotFoundByDocument` → no conflict, any
other error propagated unchanged. -/
def Service.validate_client_exists_by_document_api {σ : Type} (R : ClientBalanceRepository σ)
    (s : σ) (document : Document) : Except ClientError Unit × σ :=
  let (result, s) := R.get_client_by_document s document
  match result with
  | .ok _ => (.error (.Duplicate document.val), s)
  | .error (.NotFoundByDocument d) => let _ := d; (.ok (), s)
  | .error e => (.error e, s)

/-- `Service::create_client` (root crate): duplicate check, repository
create, balance initialization; if initialization fails the just-created
client is deleted (the compensating action) and — when that delete
succeeds — the method still returns `Ok(client)`. -/
def Service.create_client {σ : Type} (R : ClientBalanceRepository σ) (s : σ)
    (req : CreateClientRequest) : Except ClientError Client × σ :=
  let (v, s) := Service.validate_client_exists_by_document R s req.document
  match v with
  | .error e => (.error e, s)
  | .ok _ =>
    let (rc, s) := R.create_client s req
    match rc with
    | .error e => (.error e, s)
    | .ok client =>
      let (ri, s) := R.init_client_balance s client.id
      match ri with
      | .ok _ => (.ok client, s)
      | .error _ =>
        let (rd, s) := R.delete_client s client.id
        match rd with
        | .error e => (.error e, s)
        | .ok _ => (.ok client, s)

/-- `Service::credit_balance`: existence check, then delegate to the
repository. -/
def Service.credit_balance {σ : Type} (R : ClientBalanceRepository σ) (s : σ)
    (req : CreditTransactionRequest) : Except ClientError Balance × σ :=
  let (v, s) := Service.validate_client_exists R s req.clientId
  match v with
  | .error e => (.error e, s)
  | .ok _ => R.credit_balance s req

/-- `Service::debit_balance`: existence check, then delegate to the
repository. -/
def Service.debit_balance {σ : Type} (R : ClientBalanceRepository σ) (s : σ)
    (req : DebitTransactionRequest) : Except ClientError Balance × σ :=
  let (v, s) := Service.validate_client_exists R s req.clientId
  match v with
  | .error e => (.error e, s)
  | .ok _ => R.debit_balance s req

/-- `Service::get_balance_by_client_id`. -/
def Service.get_balance_by_client_id {σ : Type} (R : ClientBalanceRepository σ) (s : σ)
    (req : GetClientRequest) : Except ClientError Balance × σ :=
  let (v, s) := Service.validate_client_exists R s req.clientId
  match v with
  | .error e => (.error e, s)
  | .ok _ => R.get_balance_by_client_id s req

/-- `Service::get_client_by_id`. -/
def Service.get_client_by_id {σ : Type} (R : ClientBalanceRepository σ) (s : σ)
    (req : GetClientRequest) : Except ClientError Client × σ :=
  let (v, s) := Service.validate_client_exists R s req.clientId
  match v with
  | .error e => (.error e, s)
  | .ok _ => R.get_client s req

/-- `Service::store_balances`, the close-out workflow: empty check
(`BalancesEmpty`), capture-and-zero reset (its error is wrapped by
`.with_context("Error resetting all balances to zero")` into `Unknown`),
export; on export failure merge the old balances back — a merge failure
is propagated by `?` as `Unknown` wrapping the MERGE error ("Error
merging old balances"), while a successful merge falls through to
`Err(Unknown(export error))` with context "Error exporting balances". -/
def Service.store_balances {σ ε : Type} (R : ClientBalanceRepository σ)
    (E : BalanceExporter ε) (s : σ) (es : ε) : Except ClientError Unit × σ × ε :=
  let (r1, s) := R.are_balances_empty s
  match r1 with
  | .error e => (.error e, s, es)
  | .ok true => (.error .BalancesEmpty, s, es)
  | .ok false =>
    let (r2, s) := R.reset_all_balances_to_zero s
    match r2 with
    | .error e =>
      (.error (.Unknown (.ctx "Error resetting all balances to zero" (toAnyErr e))), s, es)
    | .ok oldBalanceClients =>
      let (r3, es) := E.export_balances es oldBalanceClients
      match r3 with
      | .ok _ => (.ok (), s, es)
      | .error e =>
        let exportErr : AnyErr := .ctx "Error exporting balances" (toAnyErr e)
        let (r4, s) := R.merge_old_balances s oldBalanceClients
        match r4 with
        | .error m =>
          (.error (.Unknown (.ctx "Error merging old balances" (toAnyErr m))), s, es)
        | .ok _ => (.error (.Unknown exportErr), s, es)

/-! ## Concrete exporters and repository variants used by the claims -/

/-- An exporter that always succeeds, recording each exported snapshot
(state: the list of snapshots received so far). -/
def recordingExporter : BalanceExporter (List (List Balance)) where
  export_balances := fun es balances => (.ok (), es ++ [balances])

/-- An exporter that always fails with `Unknown` around the given root
message (state: `Unit`). -/
def failExporter (msg : String) : BalanceExporter Unit where
  export_balances := fun es _ => (.error (.Unknown (.base msg)), es)

/-- The in-memory repository with `merge_old_balances` replaced by an
always-failing, non-mutating merge (models a storage-level merge failure
in the close-out recovery path). -/
def failingMergeRepo (msg : String) : ClientBalanceRepository InMemoryRepository :=
  { inMemoryRepo with merge_old_balances := fun s _ => (.error (.Unknown (.base msg)), s) }

/-- The in-memory repository with `init_client_balance` replaced by an
always-failing, non-mutating initialization (models a storage-level
failure between client creation and balance initialization). -/
def initFailRepo (msg : String) : ClientBalanceRepository InMemoryRepository :=
  { inMemoryRepo with init_client_balance := fun s _ => (.error (.Unknown (.base msg)), s) }

/-- A repository over trivial state whose document lookup always fails
with `Unknown` ("storage down") and whose create always succeeds with a
fixed client; the other operations are irrelevant stubs. Used only to
exhibit counterexample behavior of the root duplicate check. -/
def unknownLookupRepo (c : Client) : ClientBalanceRepository Unit where
  create_client := fun s _ => (.ok c, s)
  init_client_balance := fun s i => (.ok ⟨i, 0⟩, s)
  delete_client := fun s _ => (.ok (), s)
  client_id_exists := fun s _ => (.ok true, s)
  get_client_by_document := fun s _ => (.error (.Unknown (.base "storage down")), s)
  credit_balance := fun s r => (.ok ⟨r.clientId, r.amount⟩, s)
  debit_balance := fun s r => (.ok ⟨r.clientId, r.amount⟩, s)
  get_client := fun s _ => (.ok c, s)
  get_balance_by_client_id := fun s r => (.ok ⟨r.clientId, 0⟩, s)
  reset_all_balances_to_zero := fun s => (.ok [], s)
  are_balances_empty := fun s => (.ok true, s)
  merge_old_balances := fun s _ => (.ok (), s)

/-! ## Helper lemmas about the association-list and string models -/

theorem alGet_cons {α : Type} (k k' : ClientId) (v : α) (m : List (ClientId × α)) :
    alGet ((k, v) :: m) k' = if k = k' then some v else alGet m k' := rfl

theorem alGet_append_notin {α : Type} (pre m : List (ClientId × α)) (k : ClientId)
    (h : ∀ q ∈ pre, q.1 ≠ k) : alGet (pre ++ m) k = alGet m k := by
  induction pre with
  | nil => rfl
  | cons p rest ih =>
    obtain ⟨k', v'⟩ := p
    have hp : k' ≠ k := h (k', v') (by simp)
    simp only [List.cons_append, alGet, if_neg hp]
    exact ih (fun q hq => h q (by simp [hq]))

theorem alInsert_append_notin {α : Type} (pre m : List (ClientId × α)) (k : ClientId) (v : α)
    (h : ∀ q ∈ pre, q.1 ≠ k) : alInsert (pre ++ m) k v = pre ++ alInsert m k v := by
  induction pre with
  | nil => rfl
  | cons p rest ih =>
    obtain ⟨k', v'⟩ := p
    have hp : k' ≠ k := h (k', v') (by simp)
    simp only [List.cons_append, alInsert, if_neg hp]
    exact congrArg _ (ih (fun q hq => h q (by simp [hq])))

theorem alGet_alInsert_self {α : Type} (m : List (ClientId × α)) (k : ClientId) (v : α) :
    alGet (alInsert m k v) k = some v := by
  induction m with
  | nil => simp [alInsert, alGet]
  | cons p rest ih =>
    obtain ⟨k', v'⟩ := p
    by_cases hk : k' = k
    · simp [alInsert, hk, alGet]
    · simp [alInsert, hk, alGet, ih]

theorem mem_alInsert {α : Type} (m : List (ClientId × α)) (k : ClientId) (v : α)
    (p : ClientId × α) (hp : p ∈ alInsert m k v) : p ∈ m ∨ p = (k, v) := by
  induction m with
  | nil => simpa [alInsert] using hp
  | cons q rest ih =>
    obtain ⟨k', v'⟩ := q
    by_cases hk : k' = k
    · simp only [alInsert, if_pos hk] at hp
      rcases List.mem_cons.mp hp with h | h
      · right; exact h
      · left; exact List.mem_cons_of_mem _ h
    · simp only [alInsert, if_neg hk] at hp
      rcases List.mem_cons.mp hp with h | h
      · left; simp [h]
      · rcases ih h with h' | h'
        · left; exact List.mem_cons_of_mem _ h'
        · right; exact h'

theorem alGet_map_zero (m : List (ClientId × Balance)) (k : ClientId) (b : Balance)
    (h : alGet (m.map (fun p => (p.1, Balance.mk p.2.id 0))) k = some b) : b.balance = 0 := by
  induction m with
  | nil => simp [alGet] at h
  | cons p rest ih =>
    obtain ⟨k', v'⟩ := p
    by_cases hk : k' = k
    · simp [alGet, hk] at h
      simp [← h]
    · simp only [List.map_cons, alGet, if_neg hk] at h
      exact ih h

theorem digitChar_spec (d : Nat) (h : d < 10) :
    (digitChar d).isDigit = true ∧ digitVal (digitChar d) = d ∧
      rustIsWhitespace (digitChar d) = false ∧ digitChar d ≠ '+' := by
  interval_cases d <;> exact ⟨by decide, by decide, by decide, by decide⟩

theorem natDigits_ne_nil (n : Nat) : natDigits n ≠ [] := by
  rw [natDigits.eq_def]
  split <;> simp

theorem natDigits_all (n : Nat) :
    ∀ c ∈ natDigits n, c.isDigit = true ∧ rustIsWhitespace c = false ∧ c ≠ '+' := by
  induction n using Nat.strong_induction_on with
  | _ n ih =>
    rw [natDigits.eq_def]
    split
    · next h =>
      intro c hc
      simp only [List.mem_singleton] at hc
      subst hc
      exact ⟨(digitChar_spec n h).1, (digitChar_spec n h).2.2.1, (digitChar_spec n h).2.2.2⟩
    · next h =>
      intro c hc
      rcases List.mem_append.mp hc with h' | h'
      · exact ih (n / 10) (Nat.div_lt_self (by omega) (by omega)) c h'
      · simp only [List.mem_singleton] at h'
        subst h'
        have hm : n % 10 < 10 := Nat.mod_lt _ (by omega)
        exact ⟨(digitChar_spec _ hm).1, (digitChar_spec _ hm).2.2.1, (digitChar_spec _ hm).2.2.2⟩

theorem digitsToNat_append_singleton (l : List Char) (c : Char) :
    digitsToNat (l ++ [c]) = digitsToNat l * 10 + digitVal c := by
  simp [digitsToNat, List.foldl_append]

theorem digitsToNat_natDigits (n : Nat) : digitsToNat (natDigits n) = n := by
  induction n using Nat.strong_induction_on with
  | _ n ih =>
    rw [natDigits.eq_def]
    split
    · next h =>
      simpa [digitsToNat] using (digitChar_spec n h).2.1
    · next h =>
      rw [digitsToNat_append_singleton,
        ih (n / 10) (Nat.div_lt_self (by omega) (by omega)),
        (digitChar_spec (n % 10) (Nat.mod_lt _ (by omega))).2.1]
      omega

theorem dropWhile_eq_self_of_all_false {α : Type} (p : α → Bool) (l : List α)
    (h : ∀ c ∈ l, p c = false) : l.dropWhile p = l := by
  cases l with
  | nil => rfl
  | cons a t => simp [List.dropWhile_cons, h a (by simp)]

theorem rustTrim_of_no_ws (l : List Char) (h : ∀ c ∈ l, rustIsWhitespace c = false) :
    rustTrim ⟨l⟩ = ⟨l⟩ := by
  have h1 : l.dropWhile rustIsWhitespace = l := dropWhile_eq_self_of_all_false _ _ h
  have h2 : l.reverse.dropWhile rustIsWhitespace = l.reverse :=
    dropWhile_eq_self_of_all_false _ _ (fun c hc => h c (List.mem_reverse.mp hc))
  simp [rustTrim, h1, h2]

theorem mk_ne_empty_of_ne_nil (l : List Char) (h : l ≠ []) : (⟨l⟩ : String) ≠ "" := by
  intro heq
  exact h (congrArg String.data heq)

theorem parseUsize_natToString (n : Nat) (h : n < 2 ^ 64) :
    parseUsize (natToString n) = some n := by
  obtain ⟨a, t, hat⟩ := List.exists_cons_of_ne_nil (natDigits_ne_nil n)
  have hall := natDigits_all n
  have hhead : (natDigits n).head? = some a := by rw [hat]; rfl
  have hne : a ≠ '+' := (hall a (by rw [hat]; simp)).2.2
  have hnonempty : (natDigits n).isEmpty = false := by rw [hat]; rfl
  have halldigits : (natDigits n).all Char.isDigit = true :=
    List.all_eq_true.mpr (fun c hc => (hall c hc).1)
  have hdata : (natToString n).data = natDigits n := rfl
  unfold parseUsize
  rw [hdata]
  simp only [hhead, Option.some.injEq, hne, if_false, hnonempty, Bool.false_eq_true,
    halldigits, if_true, digitsToNat_natDigits]
  rw [if_pos h]

theorem ClientId_new_natToString (n : Nat) (h : n < 2 ^ 64) :
    ClientId.new (natToString n) = .ok ⟨n⟩ := by
  have htrim : rustTrim (natToString n) = natToString n :=
    rustTrim_of_no_ws (natDigits n) (fun c hc => (natDigits_all n c hc).2.1)
  have hne : natToString n ≠ "" := mk_ne_empty_of_ne_nil _ (natDigits_ne_nil n)
  unfold ClientId.new
  rw [htrim, if_neg hne, parseUsize_natToString n h]

/-! ## Claim C6: transaction-request sign rules -/

/-- C6: for every client id and amount `a`, `CreditTransactionRequest::new`
fails with `ZeroAmount` iff `a = 0`, with `NegativeAmount` iff `a < 0`, and
constructs successfully iff `a > 0`; `DebitTransactionRequest::new` fails
with `ZeroAmount` iff `a = 0`, with `PositiveAmount` iff `a > 0`, and
constructs successfully iff `a < 0`, storing `a` itself as the negative
delta to apply. -/
theorem c6_transaction_request_sign_rules (cid : ClientId) (a : Amount) :
    (CreditTransactionRequest.new cid a = .error .ZeroAmount ↔ a = 0) ∧
    (CreditTransactionRequest.new cid a = .error .NegativeAmount ↔ a < 0) ∧
    (CreditTransactionRequest.new cid a = .ok ⟨cid, a⟩ ↔ 0 < a) ∧
    (DebitTransactionRequest.new cid a = .error .ZeroAmount ↔ a = 0) ∧
    (DebitTransactionRequest.new cid a = .error .PositiveAmount ↔ 0 < a) ∧
    (DebitTransactionRequest.new cid a = .ok ⟨cid, a⟩ ↔ a < 0) := by
  rcases lt_trichotomy a 0 with h | h | h
  · have h0 : a ≠ 0 := ne_of_lt h
    have h1 : ¬ 0 < a := lt_asymm h
    simp [CreditTransactionRequest.new, DebitTransactionRequest.new, h, h0, h1]
  · subst h
    simp [CreditTransactionRequest.new, DebitTransactionRequest.new]
  · have h0 : a ≠ 0 := ne_of_gt h
    have h1 : ¬ a < 0 := lt_asymm h
    simp [CreditTransactionRequest.new, DebitTransactionRequest.new, h, h0, h1]

/-! ## Claim C5: value-object constructor validation -/

/-- C8: on an empty ledger, `store_balances` fails with `BalancesEmpty` and
performs no mutation of repository or exporter state. -/
theorem c8_store_balances_empty_no_mutation {ε : Type} (E : BalanceExporter ε)
    (s : InMemoryRepository) (es : ε) (h : s.client_balances = []) :
    Service.store_balances inMemoryRepo E s es = (.error .BalancesEmpty, s, es) := by
  simp [Service.store_balances, inMemoryRepo, InMemoryRepository.are_balances_empty, h]

/-- C8 witness: the empty in-memory state with the recording exporter. -/
theorem c8_witness :
    Service.store_balances inMemoryRepo recordingExporter ⟨[], [], 0⟩ [] =
      (.error .BalancesEmpty, ⟨[], [], 0⟩, []) :=
  c8_store_balances_empty_no_mutation recordingExporter ⟨[], [], 0⟩ [] rfl

theorem alGet_alRemove_self {α : Type} (m : List (ClientId × α)) (k : ClientId) :
    alGet (alRemove m k) k = none := by
  induction m with
  | nil => rfl
  | cons p rest ih =>
    obtain ⟨k', v'⟩ := p
    by_cases hk : k' = k
    · simpa [alRemove, List.filter_cons, hk] using ih
    · simp only [alRemove, List.filter_cons, decide_not] at ih ⊢
      simp [hk, alGet, ih]

/-! ## Claim C1: the duplicate check of `create_client` -/

/-- Fixture client for the C1 counterexample scenario. -/
def cexClient : Client := ⟨⟨9⟩, ⟨"N"⟩, ⟨1990, 1, 1⟩, ⟨"D"⟩, ⟨"AR"⟩⟩

/-- Fixture request for the C1 counterexample scenario. -/
def cexReq : CreateClientRequest := ⟨⟨"N"⟩, ⟨1990, 1, 1⟩, ⟨"D"⟩, ⟨"AR"⟩⟩

/-- C1 counterexample: against a repository whose document lookup fails
with `Unknown` (not a "not found" outcome), the root service's
`create_client` treats the failure as "no conflict" and proceeds to create
— the `Unknown` outcome is NOT propagated as an error. -/
theorem c1_counterexample :
    (unknownLookupRepo cexClient).get_client_by_document () cexReq.document
        = (.error (.Unknown (.base "storage down")), ()) ∧
      Service.create_client (unknownLookupRepo cexClient) () cexReq = (.ok cexClient, ()) :=
  ⟨rfl, rfl⟩

/-- C1 (amended): in the root crate's duplicate check a successful lookup
is surfaced as `Duplicate` and ANY lookup error — "not found" or any other
outcome such as `Unknown` — is treated as "no conflict" (creation
proceeds); only the api-crate variant of the check behaves as the claim
states: not-found → no conflict, success → `Duplicate`, any other error
propagated unchanged. -/
theorem c1_amended_duplicate_check {σ : Type} (R : ClientBalanceRepository σ) (s s' : σ)
    (doc : Document) :
    (∀ e, R.get_client_by_document s doc = (.error e, s') →
      Service.validate_client_exists_by_document R s doc = (.ok (), s')) ∧
    (∀ c, R.get_client_by_document s doc = (.ok c, s') →
      Service.validate_client_exists_by_document R s doc
        = (.error (.Duplicate doc.val), s')) ∧
    (∀ d, R.get_client_by_document s doc = (.error (.NotFoundByDocument d), s') →
      Service.validate_client_exists_by_document_api R s doc = (.ok (), s')) ∧
    (∀ c, R.get_client_by_document s doc = (.ok c, s') →
      Service.validate_client_exists_by_document_api R s doc
        = (.error (.Duplicate doc.val), s')) ∧
    (∀ a, R.get_client_by_document s doc = (.error (.Unknown a), s') →
      Service.validate_client_exists_by_document_api R s doc
        = (.error (.Unknown a), s')) := by
  refine ⟨?_, ?_, ?_, ?_, ?_⟩ <;> intro x h <;>
    simp [Service.validate_client_exists_by_document,
      Service.validate_client_exists_by_document_api, h]

/-- C1 witness: the amended claim applied to the `Unknown`-failing lookup. -/
theorem c1_witness :
    Service.validate_client_exists_by_document (unknownLookupRepo cexClient) ()
      cexReq.document = (.ok (), ()) :=
  (c1_amended_duplicate_check (unknownLookupRepo cexClient) () () cexReq.document).1
    (.Unknown (.base "storage down")) rfl

/-! ## Claim C2: close-out with failing export AND failing merge -/

/-- Fixture repository state for the C2 counterexample scenario. -/
def c2State : InMemoryRepository := ⟨[], [(⟨1⟩, ⟨⟨1⟩, 100⟩)], 1⟩

/-- C2 counterexample: when the export fails and the merge also fails,
`store_balances` reports the MERGE error (context "Error merging old
balances"), not the original export error. -/
theorem c2_counterexample :
    (Service.store_balances (failingMergeRepo "merge boom") (failExporter "export boom")
        c2State ()).1
      = .error (.Unknown (.ctx "Error merging old balances" (.base "merge boom"))) ∧
    (Service.store_balances (failingMergeRepo "merge boom") (failExporter "export boom")
        c2State ()).1
      ≠ .error (.Unknown (.ctx "Error exporting balances" (.base "export boom"))) := by
  have h : (Service.store_balances (failingMergeRepo "merge boom") (failExporter "export boom")
      c2State ()).1
    = .error (.Unknown (.ctx "Error merging old balances" (.base "merge boom"))) := rfl
  refine ⟨h, ?_⟩
  rw [h]
  simp

/-- C2 (amended): if the export fails and the subsequent (non-mutating)
merge of the old balances also fails, `store_balances` reports the MERGE
error — `Unknown` wrapping the merge failure under the context "Error
merging old balances" — not the original export error; the ledger is left
at zero for every merged client, and the outcome is an error, never
success. -/
theorem c2_amended_merge_error_reported (s : InMemoryRepository) (em mm : String)
    (hne : s.client_balances ≠ []) :
    (Service.store_balances (failingMergeRepo mm) (failExporter em) s ()).1
        = .error (.Unknown (.ctx "Error merging old balances" (.base mm))) ∧
    (∀ p ∈ (Service.store_balances (failingMergeRepo mm) (failExporter em) s
        ()).2.1.client_balances, p.2.balance = 0) ∧
    (∀ u, (Service.store_balances (failingMergeRepo mm) (failExporter em) s ()).1
        ≠ .ok u) := by
  have hempty : s.client_balances.isEmpty = false := by
    cases hc : s.client_balances with
    | nil => exact absurd hc hne
    | cons a t => rfl
  refine ⟨?_, ?_, ?_⟩
  · simp [Service.store_balances, failingMergeRepo, inMemoryRepo,
      InMemoryRepository.are_balances_empty, InMemoryRepository.reset_all_balances_to_zero,
      failExporter, hempty, toAnyErr, ClientError.display, AnyErr.display]
  · intro p hp
    simp only [Service.store_balances, failingMergeRepo, inMemoryRepo,
      InMemoryRepository.are_balances_empty, InMemoryRepository.reset_all_balances_to_zero,
      failExporter, hempty] at hp
    simp only [List.mem_map] at hp
    obtain ⟨q, hq, rfl⟩ := hp
    rfl
  · intro u
    simp [Service.store_balances, failingMergeRepo, inMemoryRepo,
      InMemoryRepository.are_balances_empty, InMemoryRepository.reset_all_balances_to_zero,
      failExporter, hempty]

/-- C2 witness: the amended claim at a one-client ledger. -/
theorem c2_witness :
    (Service.store_balances (failingMergeRepo "mg") (failExporter "ex")
        ⟨[], [(⟨1⟩, ⟨⟨1⟩, 100⟩)], 1⟩ ()).1
      = .error (.Unknown (.ctx "Error merging old balances" (.base "mg"))) :=
  (c2_amended_merge_error_reported ⟨[], [(⟨1⟩, ⟨⟨1⟩, 100⟩)], 1⟩ "ex" "mg" (by decide)).1

/-! ## Claim C10: compensating delete still returns `Ok` -/

/-- Fixture request for the C10 scenario. -/
def c10Req : CreateClientRequest := ⟨⟨"Jane"⟩, ⟨1991, 2, 3⟩, ⟨"DOC10"⟩, ⟨"UY"⟩⟩

/-- C10: when balance initialization fails during `create_client` and the
compensating delete succeeds, `create_client` still returns `Ok` with the
just-created client, although that client no longer exists in the
repository. -/
theorem c10_create_ok_despite_deleted (s : InMemoryRepository) (req : CreateClientRequest)
    (hdoc : ∀ p ∈ s.clients, p.2.document ≠ req.document)
    (hctr : s.id_counter < 2 ^ 64) :
    ∃ c s', Service.create_client (initFailRepo "init boom") s req = (.ok c, s') ∧
      alGet s'.clients c.id = none := by
  have hid : ClientId.new (natToString s.id_counter) = .ok ⟨s.id_counter⟩ :=
    ClientId_new_natToString _ hctr
  have hfind : s.clients.find? (fun p => p.2.document = req.document) = none := by
    rw [List.find?_eq_none]
    intro x hx
    simpa using hdoc x hx
  have hany : s.clients.any (fun p => p.2.document = req.document) = false := by
    rw [List.any_eq_false]
    intro x hx
    simpa using hdoc x hx
  refine ⟨⟨⟨s.id_counter⟩, req.name, req.birthDate, req.document, req.country⟩,
    { clients := alRemove (alInsert s.clients ⟨s.id_counter⟩
        ⟨⟨s.id_counter⟩, req.name, req.birthDate, req.document, req.country⟩) ⟨s.id_counter⟩,
      client_balances := s.client_balances, id_counter := s.id_counter + 1 }, ?_, ?_⟩
  · simp [Service.create_client, Service.validate_client_exists_by_document, initFailRepo,
      inMemoryRepo, InMemoryRepository.get_client_by_document, hfind,
      InMemoryRepository.create_client, hid, hany, InMemoryRepository.delete_client]
  · exact alGet_alRemove_self _ _

/-- C10 witness: the empty repository and a concrete request. -/
theorem c10_witness :
    ∃ c s', Service.create_client (initFailRepo "init boom") ⟨[], [], 0⟩ c10Req
        = (.ok c, s') ∧ alGet s'.clients c.id = none :=
  c10_create_ok_despite_deleted ⟨[], [], 0⟩ c10Req (by simp) (by norm_num)

/-! ## Claims C3 and C4: the close-out happy path and export-failure rollback -/

/-- Well-formedness of the balances map as the repository maintains it:
keys are pairwise distinct and every stored `Balance` carries its own key
as client id. -/
def BalancesWF (s : InMemoryRepository) : Prop :=
  s.client_balances.Pairwise (fun p q => p.1 ≠ q.1) ∧
    ∀ p ∈ s.client_balances, p.2.id = p.1

theorem mergeBalances_restore (l : List (ClientId × Balance)) :
    ∀ pre : List (ClientId × Balance),
      (pre ++ l).Pairwise (fun p q => p.1 ≠ q.1) →
      (∀ p ∈ l, p.2.id = p.1) →
      mergeBalances (pre ++ l.map (fun p => (p.1, Balance.mk p.2.id 0)))
        (l.map (fun p => p.2)) = pre ++ l := by
  induction l with
  | nil => intro pre _ _; simp [mergeBalances]
  | cons p rest ih =>
    intro pre hkeys hal
    obtain ⟨k, b⟩ := p
    have hbid : b.id = k := hal (k, b) (by simp)
    have hpre : ∀ q ∈ pre, q.1 ≠ k := by
      intro q hq
      exact (List.pairwise_append.mp hkeys).2.2 q hq (k, b) (by simp)
    have hget : alGet (pre ++ (k, Balance.mk b.id 0) :: rest.map
        (fun p => (p.1, Balance.mk p.2.id 0))) b.id = some (Balance.mk b.id 0) := by
      rw [hbid, alGet_append_notin _ _ _ hpre]
      simp [alGet]
    have hb' : Balance.mk k b.balance = b := by rw [← hbid]
    have hins : alInsert (pre ++ (k, Balance.mk b.id 0) :: rest.map
          (fun p => (p.1, Balance.mk p.2.id 0))) b.id
          (Balance.mk (Balance.mk b.id 0).id (b.balance + (Balance.mk b.id 0).balance))
        = pre ++ (k, b) :: rest.map (fun p => (p.1, Balance.mk p.2.id 0)) := by
      rw [hbid, alInsert_append_notin _ _ _ _ hpre]
      simp [alInsert, hb']
    rw [List.map_cons, List.map_cons, mergeBalances, hget]
    simp only []
    rw [hins]
    have hassoc : pre ++ (k, b) :: rest = (pre ++ [(k, b)]) ++ rest := by simp
    have hassoc2 : pre ++ (k, b) :: rest.map (fun p => (p.1, Balance.mk p.2.id 0))
        = (pre ++ [(k, b)]) ++ rest.map (fun p => (p.1, Balance.mk p.2.id 0)) := by simp
    rw [hassoc, hassoc2]
    exact ih (pre ++ [(k, b)])
      (by simpa using hkeys)
      (fun q hq => hal q (List.mem_cons_of_mem _ hq))

/-- C3: on a non-empty ledger with a succeeding exporter, `store_balances`
succeeds, hands the exporter exactly the pre-reset snapshot — one entry
per stored balance, carrying its stored client id and pre-reset amount —
and leaves every balance in the ledger at zero. -/
theorem c3_store_balances_exports_snapshot_and_zeroes (s : InMemoryRepository)
    (log : List (List Balance)) (hne : s.client_balances ≠ []) :
    Service.store_balances inMemoryRepo recordingExporter s log =
      (.ok (),
        { s with client_balances :=
            s.client_balances.map (fun p => (p.1, Balance.mk p.2.id 0)) },
        log ++ [s.client_balances.map (fun p => p.2)]) ∧
    ∀ p ∈ (Service.store_balances inMemoryRepo recordingExporter s
        log).2.1.client_balances, p.2.balance = 0 := by
  have hempty : s.client_balances.isEmpty = false := by
    cases hc : s.client_balances with
    | nil => exact absurd hc hne
    | cons a t => rfl
  constructor
  · simp [Service.store_balances, inMemoryRepo, InMemoryRepository.are_balances_empty,
      InMemoryRepository.reset_all_balances_to_zero, recordingExporter, hempty]
  · intro p hp
    simp only [Service.store_balances, inMemoryRepo, InMemoryRepository.are_balances_empty,
      InMemoryRepository.reset_all_balances_to_zero, recordingExporter, hempty] at hp
    simp only [List.mem_map] at hp
    obtain ⟨q, hq, rfl⟩ := hp
    rfl

/-- C3 witness: the two-client scenario of the spec (A credited 100, B at
-50). -/
theorem c3_witness :
    (⟨[], [(⟨1⟩, ⟨⟨1⟩, 100⟩), (⟨2⟩, ⟨⟨2⟩, -50⟩)], 2⟩ : InMemoryRepository).client_balances
        ≠ [] ∧
    Service.store_balances inMemoryRepo recordingExporter
        ⟨[], [(⟨1⟩, ⟨⟨1⟩, 100⟩), (⟨2⟩, ⟨⟨2⟩, -50⟩)], 2⟩ [] =
      (.ok (), ⟨[], [(⟨1⟩, ⟨⟨1⟩, 0⟩), (⟨2⟩, ⟨⟨2⟩, 0⟩)], 2⟩,
        [[⟨⟨1⟩, 100⟩, ⟨⟨2⟩, -50⟩]]) :=
  ⟨by decide,
    (c3_store_balances_exports_snapshot_and_zeroes
      ⟨[], [(⟨1⟩, ⟨⟨1⟩, 100⟩), (⟨2⟩, ⟨⟨2⟩, -50⟩)], 2⟩ [] (by decide)).1⟩

/-- C4: on a non-empty well-formed ledger, if the exporter fails and the
merge succeeds, `store_balances` returns `Unknown` carrying the export
error (context "Error exporting balances") and the repository state is
restored exactly to its pre-call value by additively merging the snapshot
into the zeroed ledger. -/
theorem c4_store_balances_export_failure_rolls_back (s : InMemoryRepository) (msg : String)
    (hne : s.client_balances ≠ []) (hwf : BalancesWF s) :
    Service.store_balances inMemoryRepo (failExporter msg) s () =
      (.error (.Unknown (.ctx "Error exporting balances" (.base msg))), s, ()) := by
  have hempty : s.client_balances.isEmpty = false := by
    cases hc : s.client_balances with
    | nil => exact absurd hc hne
    | cons a t => rfl
  have hmerge : mergeBalances (s.client_balances.map (fun p => (p.1, Balance.mk p.2.id 0)))
      (s.client_balances.map (fun p => p.2)) = s.client_balances :=
    mergeBalances_restore s.client_balances [] (by simpa using hwf.1) hwf.2
  simp [Service.store_balances, inMemoryRepo, InMemoryRepository.are_balances_empty,
    InMemoryRepository.reset_all_balances_to_zero, InMemoryRepository.merge_old_balances,
    failExporter, hempty, toAnyErr, ClientError.display, AnyErr.display, hmerge]

/-- C4 witness: the spec's two-client scenario with a failing exporter. -/
theorem c4_witness :
    Service.store_balances inMemoryRepo (failExporter "disk full")
        ⟨[], [(⟨1⟩, ⟨⟨1⟩, 100⟩), (⟨2⟩, ⟨⟨2⟩, -50⟩)], 2⟩ () =
      (.error (.Unknown (.ctx "Error exporting balances" (.base "disk full"))),
        ⟨[], [(⟨1⟩, ⟨⟨1⟩, 100⟩), (⟨2⟩, ⟨⟨2⟩, -50⟩)], 2⟩, ()) :=
  c4_store_balances_export_failure_rolls_back
    ⟨[], [(⟨1⟩, ⟨⟨1⟩, 100⟩), (⟨2⟩, ⟨⟨2⟩, -50⟩)], 2⟩ "disk full" (by decide)
    ⟨by decide, by decide⟩

/-! ## Claim C7: credit/debit add the amount to the stored balance -/

/-- Fixture client for the C7 witness. -/
def c7Client : Client := ⟨⟨1⟩, ⟨"N"⟩, ⟨1990, 1, 1⟩, ⟨"D"⟩, ⟨"AR"⟩⟩

/-- C7: for an existing client whose stored balance is `b` and an accepted
transaction amount `a`, `credit_balance` (with `a > 0`) and
`debit_balance` (with `a < 0`) both return a `Balance` carrying the
client's id and `b.balance + a`, and the stored balance afterwards reads
`b.balance + a`. -/
theorem c7_credit_debit_add_amount (s : InMemoryRepository) (cid : ClientId) (c : Client)
    (b : Balance) (a : Amount)
    (hc : alGet s.clients cid = some c)
    (hb : alGet s.client_balances cid = some b)
    (hid : b.id = cid) :
    (0 < a →
      Service.credit_balance inMemoryRepo s ⟨cid, a⟩ = (.ok ⟨cid, b.balance + a⟩,
        { s with client_balances :=
            alInsert s.client_balances cid ⟨cid, b.balance + a⟩ }) ∧
      alGet (alInsert s.client_balances cid (⟨cid, b.balance + a⟩ : Balance)) cid
        = some ⟨cid, b.balance + a⟩) ∧
    (a < 0 →
      Service.debit_balance inMemoryRepo s ⟨cid, a⟩ = (.ok ⟨cid, b.balance + a⟩,
        { s with client_balances :=
            alInsert s.client_balances cid ⟨cid, b.balance + a⟩ }) ∧
      alGet (alInsert s.client_balances cid (⟨cid, b.balance + a⟩ : Balance)) cid
        = some ⟨cid, b.balance + a⟩) := by
  have hcont : alContains s.clients cid = true := by simp [alContains, hc]
  constructor <;> intro _ <;>
    refine ⟨?_, alGet_alInsert_self _ _ _⟩ <;>
      simp [Service.credit_balance, Service.debit_balance, Service.validate_client_exists,
        inMemoryRepo, InMemoryRepository.client_id_exists, hcont,
        InMemoryRepository.credit_balance, InMemoryRepository.debit_balance,
        InMemoryRepository.update_balance, hb, hid]

/-- C7 witness: crediting 60 onto a stored balance of 40 yields 100. -/
theorem c7_witness :
    (0 : Amount) < 60 ∧
      Service.credit_balance inMemoryRepo ⟨[(⟨1⟩, c7Client)], [(⟨1⟩, ⟨⟨1⟩, 40⟩)], 2⟩
          ⟨⟨1⟩, 60⟩ =
        (.ok ⟨⟨1⟩, 100⟩, ⟨[(⟨1⟩, c7Client)], [(⟨1⟩, ⟨⟨1⟩, 100⟩)], 2⟩) := by
  have h := (c7_credit_debit_add_amount ⟨[(⟨1⟩, c7Client)], [(⟨1⟩, ⟨⟨1⟩, 40⟩)], 2⟩ ⟨1⟩
    c7Client ⟨⟨1⟩, 40⟩ 60 rfl rfl rfl).1 (by decide)
  refine ⟨by decide, ?_⟩
  rw [h.1]
  rfl

/-! ## Claim C9: document uniqueness is an invariant of every operation -/

/-- The invariant: no two stored clients share a document. -/
def DocsUnique (s : InMemoryRepository) : Prop :=
  s.clients.Pairwise (fun p q => p.2.document ≠ q.2.document)

theorem docsPairwise_alInsert (m : List (ClientId × Client)) (k : ClientId) (c : Client)
    (hm : m.Pairwise (fun p q => p.2.document ≠ q.2.document))
    (hfresh : ∀ p ∈ m, p.2.document ≠ c.document) :
    (alInsert m k c).Pairwise (fun p q => p.2.document ≠ q.2.document) := by
  induction m with
  | nil => simp [alInsert]
  | cons q rest ih =>
    obtain ⟨k', v'⟩ := q
    rw [List.pairwise_cons] at hm
    by_cases hk : k' = k
    · simp only [alInsert, if_pos hk]
      rw [List.pairwise_cons]
      refine ⟨?_, hm.2⟩
      intro p hp
      exact (hfresh p (List.mem_cons_of_mem _ hp)).symm
    · simp only [alInsert, if_neg hk]
      rw [List.pairwise_cons]
      refine ⟨?_, ih hm.2 (fun p hp => hfresh p (List.mem_cons_of_mem _ hp))⟩
      intro p hp
      rcases mem_alInsert rest k c p hp with h' | h'
      · exact hm.1 p h'
      · subst h'
        exact hfresh (k', v') (by simp)

/-- C9: document uniqueness is preserved by every repository operation —
of which `create_client` is the only one that inserts a client — and
`create_client` (in the same critical section as the insert) rejects with
`Duplicate` any request whose document is already present. -/
theorem c9_document_uniqueness_invariant (s : InMemoryRepository) (hu : DocsUnique s) :
    (∀ req, DocsUnique (s.create_client req).2) ∧
    (∀ cid, DocsUnique (s.init_client_balance cid).2) ∧
    (∀ cid, DocsUnique (s.delete_client cid).2) ∧
    (∀ cid, DocsUnique (s.client_id_exists cid).2) ∧
    (∀ d, DocsUnique (s.get_client_by_document d).2) ∧
    (∀ req, DocsUnique (s.credit_balance req).2) ∧
    (∀ req, DocsUnique (s.debit_balance req).2) ∧
    (∀ req, DocsUnique (s.get_client req).2) ∧
    (∀ req, DocsUnique (s.get_balance_by_client_id req).2) ∧
    DocsUnique s.reset_all_balances_to_zero.2 ∧
    DocsUnique s.are_balances_empty.2 ∧
    (∀ olds, DocsUnique (s.merge_old_balances olds).2) ∧
    (∀ req, s.id_counter < 2 ^ 64 → (∃ p ∈ s.clients, p.2.document = req.document) →
      (s.create_client req).1 = .error (.Duplicate req.document.val)) := by
  refine ⟨?_, ?_, ?_, ?_, ?_, ?_, ?_, ?_, ?_, ?_, ?_, ?_, ?_⟩
  · intro req
    rcases hcid : ClientId.new (natToString s.id_counter) with e | id
    · simpa [InMemoryRepository.create_client, hcid, DocsUnique] using hu
    · by_cases hdup : s.clients.any (fun p => p.2.document = req.document) = true
      · simpa [InMemoryRepository.create_client, hcid, hdup, DocsUnique] using hu
      · have hfresh : ∀ p ∈ s.clients, p.2.document ≠ req.document := by
          intro p hp
          rw [List.any_eq_true] at hdup
          intro hcon
          exact hdup ⟨p, hp, by simpa using hcon⟩
        simpa [InMemoryRepository.create_client, hcid, hdup, DocsUnique] using
          docsPairwise_alInsert s.clients id
            ⟨id, req.name, req.birthDate, req.document, req.country⟩ hu hfresh
  · intro cid
    by_cases hex : alContains s.clients cid <;>
      simpa [InMemoryRepository.init_client_balance, hex, DocsUnique] using hu
  · intro cid
    exact hu.filter _
  · intro cid
    exact hu
  · intro d
    rcases hf : s.clients.find? (fun p => p.2.document = d) with _ | p <;>
      simpa [InMemoryRepository.get_client_by_document, hf, DocsUnique] using hu
  · intro req
    rcases hg : alGet s.client_balances req.clientId with _ | b <;>
      simpa [InMemoryRepository.credit_balance, InMemoryRepository.update_balance, hg,
        DocsUnique] using hu
  · intro req
    rcases hg : alGet s.client_balances req.clientId with _ | b <;>
      simpa [InMemoryRepository.debit_balance, InMemoryRepository.update_balance, hg,
        DocsUnique] using hu
  · intro req
    rcases hg : alGet s.clients req.clientId with _ | c <;>
      simpa [InMemoryRepository.get_client, hg, DocsUnique] using hu
  · intro req
    rcases hg : alGet s.client_balances req.clientId with _ | b <;>
      simpa [InMemoryRepository.get_balance_by_client_id, hg, DocsUnique] using hu
  · exact hu
  · exact hu
  · intro olds
    exact hu
  · intro req hctr hex
    have hcid : ClientId.new (natToString s.id_counter) = .ok ⟨s.id_counter⟩ :=
      ClientId_new_natToString _ hctr
    have hdup : s.clients.any (fun p => p.2.document = req.document) = true := by
      rw [List.any_eq_true]
      obtain ⟨p, hp, hd⟩ := hex
      exact ⟨p, hp, by simpa using hd⟩
    simp [InMemoryRepository.create_client, hcid, hdup]

/-- C9 witness: a one-client state; inserting a second client with the
same document is rejected with `Duplicate`. -/
theorem c9_witness :
    ((⟨[(⟨1⟩, c7Client)], [], 2⟩ : InMemoryRepository).create_client
        ⟨⟨"M"⟩, ⟨1980, 5, 6⟩, ⟨"D"⟩, ⟨"BR"⟩⟩).1 = .error (.Duplicate "D") := by
  have h := (c9_document_uniqueness_invariant ⟨[(⟨1⟩, c7Client)], [], 2⟩
    (by simp [DocsUnique])).2.2.2.2.2.2.2.2.2.2.2.2
  exact h ⟨⟨"M"⟩, ⟨1980, 5, 6⟩, ⟨"D"⟩, ⟨"BR"⟩⟩ (by norm_num)
    ⟨(⟨1⟩, c7Client), by simp, rfl⟩
